import Mathlib

/-!
Shallow embedding of the File-Based Multimodal RAG pipeline
(rag_project/src): the ingestion engine (format extractors, fallbacks,
chunking) and the retrieval engine (threshold-filtered similarity search).
External library calls (Chroma, PyPDF, pytesseract, Groq vision, file
decoding) are modelled as explicit inputs of type `Except String _`:
`.ok` is a normal return, `.error` a raised exception. Python `try/except`
blocks become pattern matches on those inputs.
-/

namespace Rag

/-- The metadata dictionary attached to a langchain `Document` in this
repository. Each field models one key the code may set; `none` models the
key being absent from the dict. `chunk_index` is included so that the
presence or absence of a chunk position index is expressible: no code in
the repository ever sets it. -/
structure Metadata where
  source : Option String := none
  rtype : Option String := none
  page : Option Int := none
  file_hash : Option String := none
  chunk_index : Option Nat := none
deriving Repr, DecidableEq

/-- langchain_core.documents.Document: page_content plus metadata. -/
structure Document where
  page_content : String
  metadata : Metadata
deriving Repr, DecidableEq

/-! ### Retrieval engine

`services/retrieval.py` `RetrievalEngine`. The Chroma vector store is
external; `query` receives the list returned by
`similarity_search_with_score(query_text, k=top_k)` as an argument:
(document, L2 distance) pairs, at most `top_k` of them, in ascending
distance order (both guaranteed by the library). Distances are embedded
as rationals. -/

/-- The filtering loop in `RetrievalEngine.query` (services/retrieval.py
lines 45-54): append `doc` to `valid_docs` iff `score < score_threshold`. -/
def queryLoop (score_threshold : Rat) : List (Document × Rat) → List Document
  | [] => []
  | (doc, score) :: rest =>
    if score < score_threshold then doc :: queryLoop score_threshold rest
    else queryLoop score_threshold rest

/-- `RetrievalEngine.query` (services/retrieval.py lines 37-60): run the
filter loop over the scored candidates; if nothing passed, return `[]`
explicitly (lines 56-58), otherwise return `valid_docs`. -/
def query (score_threshold : Rat)
    (results_with_scores : List (Document × Rat)) : List Document :=
  let valid_docs := queryLoop score_threshold results_with_scores
  if valid_docs.isEmpty then [] else valid_docs

/-- The scored candidates that survive the threshold filter; `query`
returns exactly their documents (proved below). -/
def queryScored (score_threshold : Rat)
    (results_with_scores : List (Document × Rat)) : List (Document × Rat) :=
  results_with_scores.filter (fun ds => ds.2 < score_threshold)

/-- `RetrievalEngine.query` in the plain variant (src/retrieval.py lines
29-33): returns `similarity_search(query_text, k=top_k)` unchanged — no
distance threshold parameter exists there. -/
def queryPlain (results : List Document) : List Document := results

/-- Observable outcome of a `clear()` call: `raised` is the exception that
propagates to the caller (if any), `logs` the log lines produced. -/
structure ClearOutcome where
  raised : Option String
  logs : List String
deriving Repr, DecidableEq

/-- `RetrievalEngine.clear` (services/retrieval.py lines 62-76):
`try` delete + re-initialize, `except Exception as e: logger.error(...)` —
the exception is caught and logged, and `clear` returns normally. -/
def clearServices (deleteResult : Except String Unit) : ClearOutcome :=
  match deleteResult with
  | .ok _ => { raised := none, logs := ["Vector store cleared."] }
  | .error e => { raised := none, logs := ["Error clearing vector store: " ++ e] }

/-- `RetrievalEngine.clear` in the plain variant (src/retrieval.py lines
35-44): no `try/except` — a backing-store exception propagates to the
caller, and nothing is logged. -/
def clearPlain (deleteResult : Except String Unit) : ClearOutcome :=
  match deleteResult with
  | .ok _ => { raised := none, logs := [] }
  | .error e => { raised := some e, logs := [] }

/-! #### Retrieval lemmas -/

lemma queryLoop_eq_filter (t : Rat) (rs : List (Document × Rat)) :
    queryLoop t rs = (queryScored t rs).map Prod.fst := by
  induction rs with
  | nil => rfl
  | cons hd tl ih =>
    obtain ⟨d, s⟩ := hd
    by_cases h : s < t
    · simp [queryLoop, queryScored, List.filter_cons, h] at ih ⊢
      exact ih
    · simp [queryLoop, queryScored, List.filter_cons, h] at ih ⊢
      exact ih

lemma query_eq_loop (t : Rat) (rs : List (Document × Rat)) :
    query t rs = queryLoop t rs := by
  unfold query
  by_cases h : (queryLoop t rs).isEmpty
  · simp [h, List.isEmpty_iff.mp h]
  · simp [h]

lemma query_eq_filter_map (t : Rat) (rs : List (Document × Rat)) :
    query t rs = (queryScored t rs).map Prod.fst := by
  rw [query_eq_loop, queryLoop_eq_filter]

/-! ### String helpers

Python's `str` operations, embedded as structural recursion over character
lists (so that every definition evaluates inside the kernel). -/

/-- Splitting worker: `fuel` bounds the remaining length (the separator is
nonempty, so every step consumes at least one character). -/
def splitSepFuel (sep : List Char) : Nat → List Char → List Char → List (List Char)
  | _, acc, [] => [acc.reverse]
  | 0, acc, rest => [acc.reverse ++ rest]
  | fuel + 1, acc, c :: rest =>
    if sep.isPrefixOf (c :: rest) then
      acc.reverse :: splitSepFuel sep fuel [] ((c :: rest).drop sep.length)
    else splitSepFuel sep fuel (c :: acc) rest

/-- Python `s.split(sep)` for a nonempty separator (an empty separator
returns the string whole). -/
def pySplit (sep s : String) : List String :=
  if sep = "" then [s]
  else (splitSepFuel sep.toList s.toList.length [] s.toList).map (fun cs => String.mk cs)

/-- Python `s.lower()`. -/
def pyLower (s : String) : String := String.mk (s.toList.map Char.toLower)

/-- Python `s.strip()`: drop leading and trailing whitespace. -/
def pyStrip (s : String) : String :=
  String.mk (((s.toList.dropWhile Char.isWhitespace).reverse.dropWhile
    Char.isWhitespace).reverse)

/-- Python `s.endswith(suffix)`. -/
def pyEndsWith (s suf : String) : Bool := suf.toList.isSuffixOf s.toList

/-! ### Path helpers (os.path) -/

/-- `os.path.basename` for POSIX paths: the component after the last `/`. -/
def pyBasename (p : String) : String := (pySplit "/" p).getLastD ""

/-- Index of the last `.` in a character list, if any. -/
def lastDotIdx : List Char → Option Nat
  | [] => none
  | c :: cs =>
    match lastDotIdx cs with
    | some i => some (i + 1)
    | none => if c = '.' then some 0 else none

/-- The extension component of `os.path.splitext(p)[1]`: everything from the
last `.` of the final path component, unless every character before that dot
is itself a dot (so `.bashrc` has no extension, `a.txt` has `.txt`). -/
def pySplitextExt (p : String) : String :=
  let base := pyBasename p
  let cs := base.toList
  match lastDotIdx cs with
  | none => ""
  | some i =>
    if (cs.take i).all (fun c => c = '.') then "" else String.mk (cs.drop i)

/-- Modelled: `hashlib.md5(content.encode("utf-8")).hexdigest()` — an external
deterministic 128-bit digest of the content. Embedded as a deterministic
computable function of the string (the claims depend only on the hash being a
pure function of the content, never on the MD5 algorithm itself). -/
def md5hex (s : String) : String :=
  toString (s.toList.foldl (fun a c => (a * 131 + c.toNat) % (2 ^ 128)) 0)

/-! ### Ingestion: file model

A file found on disk together with the outcome of every external call an
extractor might make on it; `.error` models the call raising an exception.
Fields cover both pipeline variants (src/ingestion.py and
src/services/ingestion.py). -/

structure FileInput where
  path : String
  /-- `PyPDFLoader(file_path).load()` (src/ingestion.py lines 80-81): the
  per-page contents; the loader tags each page `{source: path, page: i}`. -/
  pdfPages : Except String (List String)
  /-- whether `from pdf2image import convert_from_path` succeeds
  (src/ingestion.py line 138). -/
  pdf2imageAvailable : Bool
  /-- `convert_from_path` + `pytesseract.image_to_string` per page
  (src/ingestion.py lines 139-142): the per-page OCR texts. -/
  pdfOcrPages : Except String (List String)
  /-- `TextLoader(file_path, encoding=enc).load()` per encoding name
  (src/ingestion.py lines 100-104): the decoded file content; the loader
  tags the single document `{source: path}`. -/
  textDecode : String → Except String String
  /-- `Image.open` + `pytesseract.image_to_string` (src/ingestion.py
  lines 116-117): the recognized text. -/
  imageOcr : Except String String
  /-- `Docx2txtLoader(file_path).load()` (src/ingestion.py lines 163-164):
  the document content, tagged `{source: path}`. -/
  docx2txt : Except String String
  /-- `UnstructuredWordDocumentLoader(file_path).load()` (src/ingestion.py
  lines 167-168): the document content, tagged `{source: path}`. -/
  unstructured : Except String String
  /-- `pymupdf4llm.to_markdown(file_path)` (services/ingestion.py line 136). -/
  pymupdfMd : Except String String
  /-- the Groq vision chat completion's returned description
  (services/ingestion.py lines 96-119). -/
  visionCall : Except String String

/-! ### Ingestion: extractors (src/ingestion.py variant) -/

/-- `IngestionEngine._pdf_ocr_fallback` (src/ingestion.py lines 132-154):
if `pdf2image` cannot be imported, log and return `[]`; otherwise render
pages and OCR each, accumulating `full_text += "\n--- Page {i+1} ---\n{text}"`,
and emit one document tagged `scanned_pdf`; any exception yields `[]`. -/
def _pdf_ocr_fallback (f : FileInput) : List Document :=
  if f.pdf2imageAvailable then
    match f.pdfOcrPages with
    | .error _ => []
    | .ok pages =>
      let full_text := pages.enum.foldl
        (fun acc p => acc ++ "\n--- Page " ++ toString (p.1 + 1) ++ " ---\n" ++ p.2) ""
      [{ page_content := full_text,
         metadata := { source := some f.path, rtype := some "scanned_pdf" } }]
  else []

/-- `IngestionEngine._process_pdf` (src/ingestion.py lines 75-94) returning
also the number of OCR-fallback invocations (the mock call count of
Scenario B). Loader failure yields `([], 0)`; if the total stripped text
length over all pages is below 50 the OCR fallback is invoked (once),
otherwise the loader's page documents are returned. -/
def _process_pdf (f : FileInput) : List Document × Nat :=
  match f.pdfPages with
  | .error _ => ([], 0)
  | .ok pages =>
    let docs := pages.enum.map (fun p =>
      ({ page_content := p.2,
         metadata := { source := some f.path, page := some (p.1 : Int) } } : Document))
    let total_text_len : Nat := (docs.map (fun d => (pyStrip d.page_content).length)).sum
    if total_text_len < 50 then (_pdf_ocr_fallback f, 1) else (docs, 0)

/-- The encoding loop of `IngestionEngine._process_text` (src/ingestion.py
lines 100-106): return the first encoding that loads; all failing yields `[]`. -/
def tryEncodings (f : FileInput) : List String → List Document
  | [] => []
  | enc :: rest =>
    match f.textDecode enc with
    | .ok content => [{ page_content := content, metadata := { source := some f.path } }]
    | .error _ => tryEncodings f rest

/-- `IngestionEngine._process_text` (src/ingestion.py lines 96-109). -/
def _process_text (f : FileInput) : List Document :=
  tryEncodings f ["utf-8", "latin-1", "cp1252"]

/-- `IngestionEngine._process_image` (src/ingestion.py lines 111-130):
OCR the image; whitespace-only text yields `[]`; otherwise one document
whose content wraps the text in IMAGE START/END markers naming the file's
base name, with metadata `{source: file_path, type: "image"}` (note: the
full path, not the base name); any exception yields `[]`. -/
def _process_image (f : FileInput) : List Document :=
  match f.imageOcr with
  | .error _ => []
  | .ok text =>
    if pyStrip text = "" then []
    else
      [{ page_content := "--- IMAGE START: " ++ pyBasename f.path ++ " ---\n"
           ++ text ++ "\n--- IMAGE END ---",
         metadata := { source := some f.path, rtype := some "image" } }]

/-- `IngestionEngine._process_docx` (src/ingestion.py lines 156-171):
`Docx2txtLoader` for paths ending in `.docx`, otherwise
`UnstructuredWordDocumentLoader`; any exception yields `[]`. -/
def _process_docx (f : FileInput) : List Document :=
  if pyEndsWith f.path ".docx" then
    match f.docx2txt with
    | .ok content => [{ page_content := content, metadata := { source := some f.path } }]
    | .error _ => []
  else
    match f.unstructured with
    | .ok content => [{ page_content := content, metadata := { source := some f.path } }]
    | .error _ => []

/-! ### Ingestion: extractors (src/services/ingestion.py variant) -/

/-- `IngestionEngine._process_pdf` (services/ingestion.py lines 131-143):
pymupdf4llm markdown conversion; one document tagged `pdf_markdown` whose
source is the file's base name; any exception yields `[]`. -/
def sProcessPdf (f : FileInput) : List Document :=
  match f.pymupdfMd with
  | .error _ => []
  | .ok md_text =>
    [{ page_content := md_text,
       metadata := { source := some (pyBasename f.path), rtype := some "pdf_markdown",
                     page := some 0 } }]

/-- `IngestionEngine._process_image` (services/ingestion.py lines 83-129):
without a Groq client, log and return `[]`; otherwise send the image to the
vision model and emit one document whose content is the IMAGE SOURCE header
plus the description (even an empty description), with source = base name
and page 1; any exception yields `[]`. -/
def sProcessImage (groqClientAvailable : Bool) (f : FileInput) : List Document :=
  if groqClientAvailable then
    match f.visionCall with
    | .error _ => []
    | .ok description =>
      [{ page_content := "[IMAGE SOURCE: " ++ pyBasename f.path ++ "]\nDescription: "
           ++ description,
         metadata := { source := some (pyBasename f.path), rtype := some "image",
                       page := some 1 } }]
  else []

/-! ### Chunker

The repository delegates splitting to langchain's
`RecursiveCharacterTextSplitter(chunk_size, chunk_overlap,
separators=["\n\n", "\n", " ", ""])`, an external library whose code is not
part of this repository. The chunk contents are therefore modelled from the
spec; the metadata handling of `split_documents` (each chunk carries a copy
of its source document's metadata, unchanged — `add_start_index` is left
at its default `False` and no chunk-position key is ever added) follows the
library's documented contract as used by this repository. -/

/-- Raw-character fallback worker: `fuel` bounds the remaining length
(each step drops at least one character). -/
def charWindowsFuel (chunk_size chunk_overlap : Nat) : Nat → List Char → List (List Char)
  | 0, cs => [cs]
  | fuel + 1, cs =>
    if cs.length ≤ chunk_size then [cs]
    else
      cs.take chunk_size ::
        charWindowsFuel chunk_size chunk_overlap fuel
          (cs.drop (max 1 (chunk_size - chunk_overlap)))

/-- Raw-character fallback level: windows of `chunk_size` characters whose
start advances by `chunk_size - chunk_overlap` (at least 1), so consecutive
chunks share `chunk_overlap` characters. -/
def charWindows (chunk_size chunk_overlap : Nat) (cs : List Char) : List (List Char) :=
  charWindowsFuel chunk_size chunk_overlap cs.length cs

/-- Modelled from the spec: the splitting policy of the external
`RecursiveCharacterTextSplitter` (spec section 4.3): "recursively attempt to
split on a priority-ordered list of separators — paragraph break, line
break, space, then raw character boundary — choosing the coarsest separator
that keeps each resulting piece at or under chunk_size". A text at or under
`chunk_size` is kept whole as a single piece; an oversize text is split on
the current separator and each oversize piece is split further with the
remaining separators; the raw-character level applies the overlap windows. -/
def splitRec (chunk_size chunk_overlap : Nat) : List String → String → List String
  | [], s =>
    if s.length ≤ chunk_size then [s]
    else (charWindows chunk_size chunk_overlap s.toList).map (fun cs => String.mk cs)
  | sep :: rest, s =>
    if s.length ≤ chunk_size then [s]
    else (pySplit sep s).flatMap (fun piece => splitRec chunk_size chunk_overlap rest piece)

/-- The chunk contents for one record's content, with the separator priority
configured in `IngestionEngine.__init__` (both variants):
`["\n\n", "\n", " ", ""]` — the empty separator is the raw-character level. -/
def splitText (chunk_size chunk_overlap : Nat) (s : String) : List String :=
  splitRec chunk_size chunk_overlap ["\n\n", "\n", " "] s

/-- langchain `text_splitter.split_documents(documents)` as used by
`process_folder`: every chunk of a document's content becomes a document
carrying a verbatim copy of the source document's metadata (no chunk-index
key is added). -/
def split_documents (chunk_size chunk_overlap : Nat) (docs : List Document) : List Document :=
  docs.flatMap (fun d =>
    (splitText chunk_size chunk_overlap d.page_content).map
      (fun c => { page_content := c, metadata := d.metadata }))

/-! ### Ingestion orchestrator -/

/-- A folder path together with what is on disk under it. -/
structure FolderInput where
  folderExists : Bool
  files : List FileInput

/-- `glob.glob(os.path.join(folder_path, "**", "*.*"), recursive=True)`
(src/ingestion.py line 45): the files under the folder; globbing an absent
folder yields no matches. -/
def globFiles (folder : FolderInput) : List FileInput :=
  if folder.folderExists then folder.files else []

/-- The per-file hash tagging of `process_folder` (src/ingestion.py
lines 62-65): `doc.metadata["file_hash"] = self._compute_hash(doc.page_content)`. -/
def attachHash (d : Document) : Document :=
  { d with metadata := { d.metadata with file_hash := some (md5hex d.page_content) } }

/-- The extension dispatch of `process_folder` (src/ingestion.py
lines 50-60): `ext = os.path.splitext(file_path)[1].lower()`, matched
against the supported extension groups; anything else leaves `raw_docs`
empty. -/
def processFile (f : FileInput) : List Document :=
  let e := pyLower (pySplitextExt f.path)
  if e = ".pdf" then (_process_pdf f).1
  else if e = ".docx" ∨ e = ".doc" then _process_docx f
  else if e ∈ [".md", ".txt", ".yaml", ".yml", ".json", ".csv", ".log"] then _process_text f
  else if e ∈ [".png", ".jpg", ".jpeg", ".tiff", ".bmp"] then _process_image f
  else []

/-- `IngestionEngine.process_folder` (src/ingestion.py lines 40-73):
enumerate files, dispatch each by extension (a file whose extraction fails
contributes no documents — the per-file `try/except` and the extractors'
own handlers are the `.error` branches of the extractors above), tag every
raw document with its content hash, then chunk. -/
def process_folder (chunk_size chunk_overlap : Nat) (folder : FolderInput) : List Document :=
  let files := globFiles folder
  let documents := files.flatMap (fun f => (processFile f).map attachHash)
  split_documents chunk_size chunk_overlap documents

/-- The extension dispatch of the services variant (services/ingestion.py
lines 54-65): identical extension groups, services extractors for PDF and
images. -/
def sProcessFile (groqClientAvailable : Bool) (f : FileInput) : List Document :=
  let e := pyLower (pySplitextExt f.path)
  if e = ".pdf" then sProcessPdf f
  else if e = ".docx" ∨ e = ".doc" then _process_docx f
  else if e ∈ [".md", ".txt", ".yaml", ".yml", ".json", ".csv", ".log"] then _process_text f
  else if e ∈ [".png", ".jpg", ".jpeg", ".tiff", ".bmp"] then sProcessImage groqClientAvailable f
  else []

/-- `IngestionEngine.process_folder` (services/ingestion.py lines 40-81):
an absent folder returns `[]` at once (lines 46-48); otherwise enumerate,
dispatch, hash-tag, and if no documents were produced return `[]`
(lines 76-77), else chunk. -/
def sProcess_folder (chunk_size chunk_overlap : Nat) (groqClientAvailable : Bool)
    (folder : FolderInput) : List Document :=
  if folder.folderExists then
    let documents := folder.files.flatMap
      (fun f => (sProcessFile groqClientAvailable f).map attachHash)
    if documents.isEmpty then []
    else split_documents chunk_size chunk_overlap documents
  else []

/-! ### Claim theorems -/

/-- C1: for every configured distance threshold and every scored candidate
list the vector store returns for the query embedding (at most `top_k`
entries, in ascending distance order), `query` returns exactly the
candidates whose distance is strictly below the threshold; every surviving
entry is strictly below the threshold; ascending-distance order is
preserved; and when no entry passes, the result is the empty list, not an
error. -/
theorem C1_query_threshold_filter (t : Rat) (rs : List (Document × Rat)) :
    query t rs = (queryScored t rs).map Prod.fst
    ∧ (∀ ds ∈ queryScored t rs, ds.2 < t)
    ∧ (rs.Pairwise (fun a b => a.2 ≤ b.2) →
        (queryScored t rs).Pairwise (fun a b => a.2 ≤ b.2))
    ∧ ((∀ ds ∈ rs, ¬ ds.2 < t) → query t rs = []) := by
  refine ⟨query_eq_filter_map t rs, ?_, ?_, ?_⟩
  · intro ds hds
    have := (List.mem_filter.mp hds).2
    simpa using this
  · intro hs
    exact hs.filter _
  · intro hnone
    rw [query_eq_filter_map]
    have hnil : queryScored t rs = [] := by
      apply List.filter_eq_nil_iff.mpr
      intro ds hds
      simpa using hnone ds hds
    simp [hnil]

/-- Witness for C1: a sorted candidate list keeps its order through the
filter, and (Scenario D shape) three candidates all at a distance at or
above the threshold yield the empty list. -/
theorem C1_witness :
    (queryScored 2
        [(⟨"best", {}⟩, 0), (⟨"good", {}⟩, 1), (⟨"far", {}⟩, 3)]).Pairwise
      (fun a b => a.2 ≤ b.2)
    ∧ query 2 [(⟨"far1", {}⟩, 3), (⟨"far2", {}⟩, 3), (⟨"far3", {}⟩, 3)]
        = [] :=
  ⟨(C1_query_threshold_filter 2
      [(⟨"best", {}⟩, 0), (⟨"good", {}⟩, 1), (⟨"far", {}⟩, 3)]).2.2.1 (by decide),
   (C1_query_threshold_filter 2
      [(⟨"far1", {}⟩, 3), (⟨"far2", {}⟩, 3), (⟨"far3", {}⟩, 3)]).2.2.2 (by decide)⟩

/-- C10: `query` returns at most as many entries as the vector store
supplied; since `similarity_search_with_score` returns at most `top_k`
candidates, the threshold filter can only remove entries, never add any,
and the result has at most `top_k` elements (likewise trivially for the
plain variant, which returns the candidates unchanged). -/
theorem C10_topk_bound (t : Rat) (rs : List (Document × Rat)) (ds : List Document)
    (top_k : Nat) (hrs : rs.length ≤ top_k) (hds : ds.length ≤ top_k) :
    (query t rs).length ≤ top_k ∧ (queryPlain ds).length ≤ top_k := by
  constructor
  · rw [query_eq_filter_map]
    calc ((queryScored t rs).map Prod.fst).length
        = (queryScored t rs).length := List.length_map ..
      _ ≤ rs.length := List.length_filter_le ..
      _ ≤ top_k := hrs
  · exact hds

/-- Witness for C10 at a concrete two-candidate store and `top_k = 5`. -/
theorem C10_witness :
    ([((⟨"a", {}⟩ : Document), (0 : Rat)), (⟨"b", {}⟩, 3)].length ≤ 5)
    ∧ (query 2 [(⟨"a", {}⟩, 0), (⟨"b", {}⟩, 3)]).length ≤ 5
    ∧ (queryPlain [⟨"a", {}⟩]).length ≤ 5 :=
  ⟨by decide,
   (C10_topk_bound 2 [(⟨"a", {}⟩, 0), (⟨"b", {}⟩, 3)] [⟨"a", {}⟩] 5
      (by decide) (by decide)).1,
   (C10_topk_bound 2 [(⟨"a", {}⟩, 0), (⟨"b", {}⟩, 3)] [⟨"a", {}⟩] 5
      (by decide) (by decide)).2⟩

/-- Counterexample to C2: when the backing store fails during `clear()` in
the services variant, the exception is caught and logged but NOT re-raised
— `clear` returns normally (`raised = none`); and in the plain variant the
exception propagates but nothing is logged. The claim's conjunction
"logged and re-raised" holds in neither variant. -/
theorem C2_counterexample_clear_swallows :
    (clearServices (Except.error "disk failure")).raised = none
    ∧ (clearServices (Except.error "disk failure")).logs
        = ["Error clearing vector store: disk failure"]
    ∧ (clearPlain (Except.error "disk failure")).raised = some "disk failure"
    ∧ (clearPlain (Except.error "disk failure")).logs = [] :=
  ⟨rfl, rfl, rfl, rfl⟩

/-- C2 amended: when the backing store fails during `clear()`, the services
variant logs the failure and swallows it (clear returns normally, no
exception reaches the caller), while the plain variant re-raises the
exception to the caller without logging it. -/
theorem C2_amended_clear_logged_not_reraised (e : String) :
    clearServices (Except.error e)
      = { raised := none, logs := ["Error clearing vector store: " ++ e] }
    ∧ clearPlain (Except.error e) = { raised := some e, logs := [] } :=
  ⟨rfl, rfl⟩

/-! ### Concrete files used by witnesses and counterexamples -/

/-- A PDF file on which every external call raises. -/
def badFile : FileInput where
  path := "data/broken.pdf"
  pdfPages := Except.error "io error"
  pdf2imageAvailable := false
  pdfOcrPages := Except.error "io error"
  textDecode := fun _ => Except.error "decode error"
  imageOcr := Except.error "tesseract missing"
  docx2txt := Except.error "io error"
  unstructured := Except.error "io error"
  pymupdfMd := Except.error "io error"
  visionCall := Except.error "api error"

/-- A UTF-8 text file holding Scenario A's sentence. -/
def goodTxtFile : FileInput where
  path := "data/notes.txt"
  pdfPages := Except.error "not a pdf"
  pdf2imageAvailable := false
  pdfOcrPages := Except.error "not a pdf"
  textDecode := fun enc =>
    if enc = "utf-8" then Except.ok "User needs email and password to sign up."
    else Except.error "decode error"
  imageOcr := Except.error "not an image"
  docx2txt := Except.error "not a docx"
  unstructured := Except.error "not a doc"
  pymupdfMd := Except.error "not a pdf"
  visionCall := Except.error "not an image"

/-- A file with an unsupported extension (Scenario C's `.exe`); its fields
would even extract, but the dispatcher never reaches them. -/
def exeFile : FileInput where
  path := "data/setup.exe"
  pdfPages := Except.ok ["binary"]
  pdf2imageAvailable := true
  pdfOcrPages := Except.ok ["binary"]
  textDecode := fun _ => Except.ok "binary"
  imageOcr := Except.ok "binary"
  docx2txt := Except.ok "binary"
  unstructured := Except.ok "binary"
  pymupdfMd := Except.ok "binary"
  visionCall := Except.ok "binary"

/-- An image file whose OCR finds text and whose vision call returns an
empty description. -/
def imgFile : FileInput where
  path := "rag_data_source/shot.png"
  pdfPages := Except.error "not a pdf"
  pdf2imageAvailable := false
  pdfOcrPages := Except.error "not a pdf"
  textDecode := fun _ => Except.error "binary file"
  imageOcr := Except.ok "Login button"
  docx2txt := Except.error "not a docx"
  unstructured := Except.error "not a doc"
  pymupdfMd := Except.error "not a pdf"
  visionCall := Except.ok ""

/-- A scanned PDF: the loader finds 4 non-whitespace characters (below the
50-character floor) and the OCR fallback reads two pages. -/
def scannedPdfFile : FileInput where
  path := "data/scan.pdf"
  pdfPages := Except.ok ["  tiny  "]
  pdf2imageAvailable := true
  pdfOcrPages := Except.ok ["Alpha", "Beta"]
  textDecode := fun _ => Except.error "binary file"
  imageOcr := Except.error "not an image"
  docx2txt := Except.error "not a docx"
  unstructured := Except.error "not a doc"
  pymupdfMd := Except.ok "tiny"
  visionCall := Except.error "not an image"

/-- The same scanned PDF on a machine without `pdf2image`. -/
def scannedPdfNoDep : FileInput where
  path := "data/scan.pdf"
  pdfPages := Except.ok ["  tiny  "]
  pdf2imageAvailable := false
  pdfOcrPages := Except.error "pdf2image not installed"
  textDecode := fun _ => Except.error "binary file"
  imageOcr := Except.error "not an image"
  docx2txt := Except.error "not a docx"
  unstructured := Except.error "not a doc"
  pymupdfMd := Except.ok "tiny"
  visionCall := Except.error "not an image"

/-- C3: every extractor returns the empty list (never an exception) when
its external calls fail — PDF loading, all three text encodings, image
OCR, both Word loaders, and the PDF OCR fallback — and a file whose
extraction yields nothing never aborts `process_folder`: the batch result
equals the result without that file, so all successfully extracted
content is still returned. -/
theorem C3_extractor_boundary :
    (∀ f e, f.pdfPages = Except.error e → _process_pdf f = ([], 0))
    ∧ (∀ f e1 e2 e3, f.textDecode "utf-8" = Except.error e1 →
        f.textDecode "latin-1" = Except.error e2 →
        f.textDecode "cp1252" = Except.error e3 → _process_text f = [])
    ∧ (∀ f e, f.imageOcr = Except.error e → _process_image f = [])
    ∧ (∀ f e e', f.docx2txt = Except.error e → f.unstructured = Except.error e' →
        _process_docx f = [])
    ∧ (∀ f e, f.pdfOcrPages = Except.error e → _pdf_ocr_fallback f = [])
    ∧ (∀ chunk_size chunk_overlap ex pre post bad, processFile bad = [] →
        process_folder chunk_size chunk_overlap ⟨ex, pre ++ bad :: post⟩
          = process_folder chunk_size chunk_overlap ⟨ex, pre ++ post⟩) := by
  refine ⟨?_, ?_, ?_, ?_, ?_, ?_⟩
  · intro f e h
    simp [_process_pdf, h]
  · intro f e1 e2 e3 h1 h2 h3
    simp [_process_text, tryEncodings, h1, h2, h3]
  · intro f e h
    simp [_process_image, h]
  · intro f e e' h h'
    unfold _process_docx
    by_cases hd : f.path.endsWith ".docx" <;> simp [hd, h, h']
  · intro f e h
    unfold _pdf_ocr_fallback
    by_cases hav : f.pdf2imageAvailable <;> simp [hav, h]
  · intro chunk_size chunk_overlap ex pre post bad hbad
    unfold process_folder globFiles
    cases ex with
    | false => simp
    | true =>
      simp only [if_pos]
      rw [List.flatMap_append, List.flatMap_append, List.flatMap_cons, hbad]
      simp

/-- Witness for C3: the all-failing `badFile` yields the empty list from
every extractor, and adding it to a batch with a good text file leaves the
batch result unchanged. -/
theorem C3_witness :
    _process_pdf badFile = ([], 0)
    ∧ _process_text badFile = []
    ∧ _process_image badFile = []
    ∧ _process_docx badFile = []
    ∧ _pdf_ocr_fallback badFile = []
    ∧ process_folder 1000 100 ⟨true, [goodTxtFile, badFile]⟩
        = process_folder 1000 100 ⟨true, [goodTxtFile]⟩ :=
  ⟨C3_extractor_boundary.1 badFile "io error" rfl,
   C3_extractor_boundary.2.1 badFile "decode error" "decode error" "decode error"
     rfl rfl rfl,
   C3_extractor_boundary.2.2.1 badFile "tesseract missing" rfl,
   C3_extractor_boundary.2.2.2.1 badFile "io error" "io error" rfl rfl,
   C3_extractor_boundary.2.2.2.2.1 badFile "io error" rfl,
   C3_extractor_boundary.2.2.2.2.2 1000 100 true [goodTxtFile] [] badFile (by decide)⟩

/-! ### Helper lemmas for the OCR concatenation -/

lemma foldl_append_acc {α : Type} (g : α → String) (ps : List α) (acc : String) :
    ps.foldl (fun a p => a ++ g p) acc = acc ++ ps.foldl (fun a p => a ++ g p) "" := by
  induction ps generalizing acc with
  | nil => simp
  | cons hd tl ih =>
    simp only [List.foldl_cons]
    rw [ih (acc ++ g hd), ih ("" ++ g hd)]
    simp [String.append_assoc]

lemma string_join_cons (x : String) (l : List String) :
    String.join (x :: l) = x ++ String.join l := by
  simp only [String.join, List.foldl_cons]
  rw [show "" ++ x = x by simp]
  exact foldl_append_acc (fun s => s) l x

lemma foldl_marker_eq_join {α : Type} (g : α → String) (ps : List α) :
    ps.foldl (fun a p => a ++ g p) "" = String.join (ps.map g) := by
  induction ps with
  | nil => rfl
  | cons hd tl ih =>
    simp only [List.foldl_cons, List.map_cons]
    rw [foldl_append_acc g tl ("" ++ g hd), ih, string_join_cons]
    simp

lemma marker_fold_fn :
    (fun (acc : String) (p : Nat × String) =>
        acc ++ "\n--- Page " ++ toString (p.1 + 1) ++ " ---\n" ++ p.2)
      = fun (acc : String) (p : Nat × String) =>
          acc ++ ("\n--- Page " ++ toString (p.1 + 1) ++ " ---\n" ++ p.2) := by
  funext acc p
  simp [String.append_assoc]

lemma enum_map_snd_comp {α β : Type} (h : α → β) (l : List α) :
    l.enum.map (fun p => h p.2) = l.map h := by
  rw [show (fun p : Nat × α => h p.2) = h ∘ Prod.snd from rfl, ← List.map_map,
    List.enum_map_snd]

/-- C4: for a PDF whose loader succeeds but whose total stripped text
length over all pages is below the 50-character floor, `_process_pdf`
invokes the OCR fallback exactly once; when `pdf2image` is available and
page OCR succeeds, the result is a single record tagged `scanned_pdf`
whose content is the concatenation of the per-page OCR texts, each
preceded by its `--- Page N ---` marker; when the dependency is
unavailable, the result is the empty list rather than an exception. -/
theorem C4_scanned_pdf_ocr (f : FileInput) (pages ocr : List String)
    (hload : f.pdfPages = Except.ok pages)
    (hshort : (pages.map (fun s => (pyStrip s).length)).sum < 50) :
    (_process_pdf f).2 = 1
    ∧ (f.pdf2imageAvailable = true → f.pdfOcrPages = Except.ok ocr →
        (_process_pdf f).1
          = [{ page_content := String.join (ocr.enum.map
                  (fun p => "\n--- Page " ++ toString (p.1 + 1) ++ " ---\n" ++ p.2)),
               metadata := { source := some f.path, rtype := some "scanned_pdf" } }])
    ∧ (f.pdf2imageAvailable = false → (_process_pdf f).1 = []) := by
  have hgate : (((pages.enum.map (fun p =>
      ({ page_content := p.2,
         metadata := { source := some f.path, page := some (p.1 : Int) } } : Document))).map
        (fun d => (pyStrip d.page_content).length)).sum) < 50 := by
    rw [List.map_map]
    have hc : ((fun d : Document => (pyStrip d.page_content).length) ∘ fun p : Nat × String =>
        ({ page_content := p.2,
           metadata := { source := some f.path, page := some (p.1 : Int) } } : Document))
        = fun p : Nat × String => (pyStrip p.2).length := rfl
    rw [hc, enum_map_snd_comp (fun s => (pyStrip s).length) pages]
    exact hshort
  refine ⟨?_, ?_, ?_⟩
  · simp only [_process_pdf, hload]
    rw [if_pos hgate]
  · intro hav hocr
    simp only [_process_pdf, hload]
    rw [if_pos hgate]
    simp only [_pdf_ocr_fallback, hav, if_pos, hocr]
    rw [marker_fold_fn, foldl_marker_eq_join]
  · intro hav
    simp only [_process_pdf, hload]
    rw [if_pos hgate]
    simp [_pdf_ocr_fallback, hav]

/-- Witness for C4: a two-page scanned PDF (4 stripped characters) goes
through OCR once and yields one `scanned_pdf` record with page markers;
the same PDF without `pdf2image` still counts one fallback invocation and
yields the empty list. -/
theorem C4_witness :
    (_process_pdf scannedPdfFile).2 = 1
    ∧ (_process_pdf scannedPdfFile).1
        = [{ page_content := "\n--- Page 1 ---\nAlpha\n--- Page 2 ---\nBeta",
             metadata := { source := some "data/scan.pdf",
                           rtype := some "scanned_pdf" } }]
    ∧ (_process_pdf scannedPdfNoDep).2 = 1
    ∧ (_process_pdf scannedPdfNoDep).1 = [] := by
  have h1 := C4_scanned_pdf_ocr scannedPdfFile ["  tiny  "] ["Alpha", "Beta"]
    rfl (by decide)
  have h2 := C4_scanned_pdf_ocr scannedPdfNoDep ["  tiny  "] [] rfl (by decide)
  exact ⟨h1.1, (h1.2.1 rfl rfl).trans (by decide), h2.1, h2.2.2 rfl⟩

/-- The lowercased extensions `process_folder`'s dispatch recognizes
(src/ingestion.py lines 53-60). -/
def isSupportedExt (e : String) : Bool :=
  decide (e = ".pdf" ∨ e = ".docx" ∨ e = ".doc"
    ∨ e ∈ ([".md", ".txt", ".yaml", ".yml", ".json", ".csv", ".log"] : List String)
    ∨ e ∈ ([".png", ".jpg", ".jpeg", ".tiff", ".bmp"] : List String))

lemma processFile_unsupported (f : FileInput)
    (h : isSupportedExt (pyLower (pySplitextExt f.path)) = false) :
    processFile f = [] := by
  unfold processFile
  simp only [isSupportedExt, decide_eq_false_iff_not] at h
  push_neg at h
  obtain ⟨h1, h2, h3, h4, h5⟩ := h
  simp [h1, h2, h3, h4, h5]

/-- C5: a folder all of whose files carry unrecognized extensions yields
the empty chunk list (they are silently skipped, nothing raises), and
adding a file with an unsupported extension to a batch leaves the batch's
chunks exactly those of the remaining files — in particular, for one
unsupported file next to one valid file, the chunks are those of the valid
file alone. -/
theorem C5_unsupported_skipped :
    (∀ chunk_size chunk_overlap folder,
        (∀ f ∈ folder.files, isSupportedExt (pyLower (pySplitextExt f.path)) = false) →
        process_folder chunk_size chunk_overlap folder = [])
    ∧ (∀ chunk_size chunk_overlap ex fOther fTxt,
        isSupportedExt (pyLower (pySplitextExt fOther.path)) = false →
        process_folder chunk_size chunk_overlap ⟨ex, [fOther, fTxt]⟩
          = process_folder chunk_size chunk_overlap ⟨ex, [fTxt]⟩) := by
  constructor
  · intro chunk_size chunk_overlap folder hall
    unfold process_folder globFiles
    cases hex : folder.folderExists with
    | false => simp [split_documents]
    | true =>
      simp only [if_pos]
      have hnil : folder.files.flatMap (fun f => (processFile f).map attachHash) = [] := by
        apply List.flatMap_eq_nil_iff.mpr
        intro f hf
        rw [processFile_unsupported f (hall f hf)]
        rfl
      simp [hnil, split_documents]
  · intro chunk_size chunk_overlap ex fOther fTxt hother
    unfold process_folder globFiles
    cases ex with
    | false => simp
    | true =>
      simp only [if_pos, List.flatMap_cons, List.flatMap_nil]
      rw [processFile_unsupported fOther hother]
      simp

/-- Witness for C5 (Scenario C shape): a folder holding only `setup.exe`
produces no chunks, and `setup.exe` next to a valid text file produces
exactly the chunks of the text file. -/
theorem C5_witness :
    process_folder 1000 100 ⟨true, [exeFile]⟩ = []
    ∧ process_folder 1000 100 ⟨true, [exeFile, goodTxtFile]⟩
        = process_folder 1000 100 ⟨true, [goodTxtFile]⟩ :=
  ⟨C5_unsupported_skipped.1 1000 100 ⟨true, [exeFile]⟩ (by decide),
   C5_unsupported_skipped.2 1000 100 true exeFile goodTxtFile (by decide)⟩

/-- C6: for a folder path that does not exist on disk, `process_folder`
returns the empty list rather than raising — in the services variant via
the explicit existence check, and in the plain variant because globbing an
absent folder matches no files. -/
theorem C6_missing_folder (chunk_size chunk_overlap : Nat) (groqClientAvailable : Bool)
    (files : List FileInput) :
    process_folder chunk_size chunk_overlap ⟨false, files⟩ = []
    ∧ sProcess_folder chunk_size chunk_overlap groqClientAvailable ⟨false, files⟩ = [] := by
  constructor
  · simp [process_folder, globFiles, split_documents]
  · simp [sProcess_folder]

/-- C7: a record whose content is shorter than `chunk_size` is returned by
the chunker as exactly one chunk with identical content (and identical
metadata, giving exactly one output document equal to the input). -/
theorem C7_short_record_one_chunk (chunk_size chunk_overlap : Nat) (d : Document)
    (h : d.page_content.length < chunk_size) :
    splitText chunk_size chunk_overlap d.page_content = [d.page_content]
    ∧ split_documents chunk_size chunk_overlap [d] = [d] := by
  have hle : d.page_content.length ≤ chunk_size := Nat.le_of_lt h
  constructor
  · simp [splitText, splitRec, hle]
  · simp [split_documents, splitText, splitRec, hle]

/-- Witness for C7: Scenario A's 42-character sentence with the default
chunk_size 1000 yields exactly one identical chunk. -/
theorem C7_witness :
    ("User needs email and password to sign up.".length < 1000)
    ∧ split_documents 1000 100
        [⟨"User needs email and password to sign up.",
          { source := some "data/notes.txt" }⟩]
      = [⟨"User needs email and password to sign up.",
          { source := some "data/notes.txt" }⟩] :=
  ⟨by decide,
   (C7_short_record_one_chunk 1000 100
      ⟨"User needs email and password to sign up.",
        { source := some "data/notes.txt" }⟩ (by decide)).2⟩

/-! ### No extractor ever sets a chunk index -/

lemma chunkIndex_fallback (f : FileInput) :
    ∀ d ∈ _pdf_ocr_fallback f, d.metadata.chunk_index = none := by
  intro d hd
  unfold _pdf_ocr_fallback at hd
  split at hd
  · cases hocr : f.pdfOcrPages with
    | error e => rw [hocr] at hd; simp at hd
    | ok ps =>
      rw [hocr] at hd
      simp at hd
      subst hd
      rfl
  · simp at hd

lemma chunkIndex_pdf (f : FileInput) :
    ∀ d ∈ (_process_pdf f).1, d.metadata.chunk_index = none := by
  intro d hd
  unfold _process_pdf at hd
  cases hfp : f.pdfPages with
  | error e => rw [hfp] at hd; simp at hd
  | ok pages =>
    rw [hfp] at hd
    simp only at hd
    split at hd
    · exact chunkIndex_fallback f d hd
    · simp only [List.mem_map] at hd
      obtain ⟨p, hp, rfl⟩ := hd
      rfl

lemma chunkIndex_tryEncodings (f : FileInput) (encs : List String) :
    ∀ d ∈ tryEncodings f encs, d.metadata.chunk_index = none := by
  induction encs with
  | nil => simp [tryEncodings]
  | cons e rest ih =>
    intro d hd
    unfold tryEncodings at hd
    cases hde : f.textDecode e with
    | ok c =>
      rw [hde] at hd
      simp at hd
      subst hd
      rfl
    | error err =>
      rw [hde] at hd
      exact ih d hd

lemma chunkIndex_image (f : FileInput) :
    ∀ d ∈ _process_image f, d.metadata.chunk_index = none := by
  intro d hd
  unfold _process_image at hd
  cases ho : f.imageOcr with
  | error e => rw [ho] at hd; simp at hd
  | ok text =>
    rw [ho] at hd
    by_cases hs : pyStrip text = ""
    · simp [hs] at hd
    · simp [hs] at hd
      subst hd
      rfl

lemma chunkIndex_docx (f : FileInput) :
    ∀ d ∈ _process_docx f, d.metadata.chunk_index = none := by
  intro d hd
  unfold _process_docx at hd
  split at hd
  · cases h : f.docx2txt with
    | ok c => rw [h] at hd; simp at hd; subst hd; rfl
    | error e => rw [h] at hd; simp at hd
  · cases h : f.unstructured with
    | ok c => rw [h] at hd; simp at hd; subst hd; rfl
    | error e => rw [h] at hd; simp at hd

lemma chunkIndex_processFile (f : FileInput) :
    ∀ d ∈ processFile f, d.metadata.chunk_index = none := by
  intro d hd
  simp only [processFile] at hd
  split at hd
  · exact chunkIndex_pdf f d hd
  · split at hd
    · exact chunkIndex_docx f d hd
    · split at hd
      · exact chunkIndex_tryEncodings f _ d hd
      · split at hd
        · exact chunkIndex_image f d hd
        · simp at hd

/-- Every chunk's metadata is a verbatim copy of its source document's. -/
lemma mem_split_documents (chunk_size chunk_overlap : Nat) (docs : List Document)
    (c : Document) (hc : c ∈ split_documents chunk_size chunk_overlap docs) :
    ∃ d ∈ docs, c.metadata = d.metadata := by
  unfold split_documents at hc
  simp only [List.mem_flatMap, List.mem_map] at hc
  obtain ⟨d, hd, s, hs, rfl⟩ := hc
  exact ⟨d, hd, rfl⟩

/-- Counterexample to C8: a concrete run of `process_folder` over one valid
text file produces exactly one chunk, and that chunk carries no position
index (no code in the repository ever sets a chunk index key). -/
theorem C8_counterexample_no_chunk_index :
    (process_folder 1000 100 ⟨true, [goodTxtFile]⟩).length = 1
    ∧ ∀ c ∈ process_folder 1000 100 ⟨true, [goodTxtFile]⟩,
        c.metadata.chunk_index = none := by
  refine ⟨by decide, by decide⟩

/-- C8 amended: every chunk produced by `process_folder` inherits all
metadata of its source raw record, whose `file_hash` was set to the content
hash before chunking — but no position index is added: the chunk's metadata
equals the hashed source metadata and its chunk-index key is absent. -/
theorem C8_amended_metadata_inheritance (chunk_size chunk_overlap : Nat)
    (folder : FolderInput) (c : Document)
    (hc : c ∈ process_folder chunk_size chunk_overlap folder) :
    ∃ f ∈ globFiles folder, ∃ d ∈ processFile f,
      c.metadata = { d.metadata with file_hash := some (md5hex d.page_content) }
      ∧ c.metadata.file_hash = some (md5hex d.page_content)
      ∧ c.metadata.chunk_index = d.metadata.chunk_index
      ∧ c.metadata.chunk_index = none := by
  unfold process_folder at hc
  obtain ⟨dh, hdh, hmeta⟩ := mem_split_documents _ _ _ _ hc
  simp only [List.mem_flatMap, List.mem_map] at hdh
  obtain ⟨f, hf, d, hd, rfl⟩ := hdh
  refine ⟨f, hf, d, hd, hmeta, ?_, ?_, ?_⟩
  · rw [hmeta]; rfl
  · rw [hmeta]; rfl
  · rw [hmeta]
    exact chunkIndex_processFile f d hd

/-- The single chunk the goodTxtFile run produces. -/
def goodChunk : Document :=
  ⟨"User needs email and password to sign up.",
   { source := some "data/notes.txt",
     file_hash := some (md5hex "User needs email and password to sign up.") }⟩

/-- Witness for C8's amended theorem at the concrete goodTxtFile run. -/
theorem C8_witness :
    goodChunk ∈ process_folder 1000 100 ⟨true, [goodTxtFile]⟩
    ∧ ∃ f ∈ globFiles ⟨true, [goodTxtFile]⟩, ∃ d ∈ processFile f,
        goodChunk.metadata
          = { d.metadata with file_hash := some (md5hex d.page_content) }
        ∧ goodChunk.metadata.file_hash = some (md5hex d.page_content)
        ∧ goodChunk.metadata.chunk_index = d.metadata.chunk_index
        ∧ goodChunk.metadata.chunk_index = none :=
  ⟨by decide,
   C8_amended_metadata_inheritance 1000 100 ⟨true, [goodTxtFile]⟩ goodChunk (by decide)⟩

/-- Counterexample to C9: the OCR image extractor (src/ingestion.py) tags
the `source` metadata with the FULL file path, not the file's base name
(the base name appears only inside the content markers); and the vision
variant does not return an empty result for an empty description — it
still emits one record. -/
theorem C9_counterexample_image_source :
    (∃ d ∈ _process_image imgFile, d.metadata.source ≠ some (pyBasename imgFile.path))
    ∧ sProcessImage true imgFile ≠ [] := by
  refine ⟨by decide, by decide⟩

/-- C9 amended: neither image extractor raises: the OCR variant returns the
empty list when OCR fails or finds only whitespace, and otherwise tags
`source` with the full file path while naming the file's base name in the
content markers; the vision variant returns the empty list when the client
is missing or the call fails, and tags `source` with the file's base name
(emitting a record even for an empty description). -/
theorem C9_amended_image_extractor :
    (∀ f e, f.imageOcr = Except.error e → _process_image f = [])
    ∧ (∀ f t, f.imageOcr = Except.ok t → pyStrip t = "" → _process_image f = [])
    ∧ (∀ f d, d ∈ _process_image f →
        d.metadata.source = some f.path
        ∧ ∃ t, d.page_content
            = "--- IMAGE START: " ++ pyBasename f.path ++ " ---\n" ++ t
              ++ "\n--- IMAGE END ---")
    ∧ (∀ ga f e, f.visionCall = Except.error e → sProcessImage ga f = [])
    ∧ (∀ f, sProcessImage false f = [])
    ∧ (∀ ga f d, d ∈ sProcessImage ga f →
        d.metadata.source = some (pyBasename f.path)) := by
  refine ⟨?_, ?_, ?_, ?_, ?_, ?_⟩
  · intro f e h
    simp [_process_image, h]
  · intro f t h hstrip
    simp [_process_image, h, hstrip]
  · intro f d hd
    unfold _process_image at hd
    cases ho : f.imageOcr with
    | error e => rw [ho] at hd; simp at hd
    | ok text =>
      rw [ho] at hd
      by_cases hs : pyStrip text = ""
      · simp [hs] at hd
      · simp [hs] at hd
        subst hd
        exact ⟨rfl, text, rfl⟩
  · intro ga f e h
    unfold sProcessImage
    cases ga <;> simp [h]
  · intro f
    simp [sProcessImage]
  · intro ga f d hd
    unfold sProcessImage at hd
    split at hd
    · cases hv : f.visionCall with
      | error e => rw [hv] at hd; simp at hd
      | ok desc => rw [hv] at hd; simp at hd; subst hd; rfl
    · simp at hd

/-- Witness for C9's amended theorem on concrete image files. -/
theorem C9_witness :
    _process_image { imgFile with imageOcr := Except.ok "   " } = []
    ∧ (∀ d ∈ _process_image imgFile, d.metadata.source = some imgFile.path)
    ∧ sProcessImage false imgFile = []
    ∧ (∀ d ∈ sProcessImage true imgFile,
        d.metadata.source = some (pyBasename imgFile.path)) :=
  ⟨C9_amended_image_extractor.2.1 { imgFile with imageOcr := Except.ok "   " } "   "
     rfl (by decide),
   fun d hd => (C9_amended_image_extractor.2.2.1 imgFile d hd).1,
   C9_amended_image_extractor.2.2.2.2.1 imgFile,
   fun d hd => C9_amended_image_extractor.2.2.2.2.2 true imgFile d hd⟩

end Rag
